import Mathlib

/-!
Verification of the tljh-repo2docker orchestration layer.

The development shallowly embeds the two source modules:
* `docker.py` — label codec, image/container listing, and the build
  orchestrator `build_image`;
* `__init__.py` — the spawner mixin: `set_limits`, the RDM filesystem
  sidecar lifecycle (`_set_rdm_mounts`, `get_rdmfs_object`,
  `remove_object_by_id`) and the `stop` teardown.

Engine interactions are modelled by explicit state passing over record
types describing the container engine's image and container stores;
fallible calls return `Except`.  String manipulation is embedded at the
level of `String.data` (lists of characters) so that every definition
evaluates inside the kernel.
-/

/-- Python `str.lower()` restricted to ASCII case mapping, as character map. -/
def pyLower (s : String) : String := ⟨s.data.map Char.toLower⟩

/-- Python `str.replace("/", "-")` — the pattern is a single character, so a
character map is equivalent. -/
def slashToDash (s : String) : String :=
  ⟨s.data.map (fun c => if c = '/' then '-' else c)⟩

/-- The sanitization applied to image names in `build_image`:
`name.lower().replace("/", "-")`. -/
def sanitizeName (s : String) : String := slashToDash (pyLower s)

/-- Python `str.strip("/")`: remove leading and trailing slashes. -/
def pyStripSlash (s : String) : String :=
  ⟨((s.data.dropWhile (· = '/')).reverse.dropWhile (· = '/')).reverse⟩

/-- Characters allowed in a URL scheme by `urllib.parse` (first must be
alphabetic, checked separately). -/
def isSchemeChar (c : Char) : Bool := c.isAlphanum || c = '+' || c = '-' || c = '.'

/-- Whether a candidate scheme (the part before the first colon) is valid
per `urllib.parse`. -/
def validScheme (pre : List Char) : Bool :=
  match pre with
  | [] => false
  | c :: _ => c.isAlpha && pre.all isSchemeChar

/-- Drop a leading `scheme:` from a URL, as `urllib.parse.urlparse` does. -/
def dropSchemeData (l : List Char) : List Char :=
  let pre := l.takeWhile (· ≠ ':')
  if pre.length < l.length && validScheme pre then l.drop (pre.length + 1) else l

/-- Drop a leading `//netloc` component, as `urllib.parse.urlparse` does:
the network location extends to the first `/`, `?` or `#`. -/
def dropNetloc (l : List Char) : List Char :=
  match l with
  | '/' :: '/' :: rest => rest.dropWhile (fun c => !(c = '/' || c = '?' || c = '#'))
  | _ => l

/-- Python `urlparse` splits `;params` off the last path segment: the path keeps
everything before the last `;` occurring after the last `/`. -/
def splitParams (l : List Char) : List Char :=
  let rev := l.reverse
  if (rev.takeWhile (· ≠ '/')).contains ';' then
    ((rev.dropWhile (· ≠ ';')).drop 1).reverse
  else l

/-- Python `urllib.parse.urlparse(url).path`: drop the fragment, the scheme and
the network location, then strip the query and the params. -/
def urlparsePath (url : String) : String :=
  let l := url.data.takeWhile (· ≠ '#')
  let l := dropSchemeData l
  let l := dropNetloc l
  let l := l.takeWhile (· ≠ '?')
  ⟨splitParams l⟩

/-- Python truthiness of an optional string: `None` and `""` are falsy. -/
def pyTruthy : Option String → Bool
  | none => false
  | some s => s ≠ ""

/-- A call to `build_image` (docker.py lines 79–92).  `None` arguments for
`extra_buildargs`, `optional_envs` and `optional_labels` are collapsed to
the empty list/map, which the source treats identically.  `memory` is the
stringified numeric GB figure, `""` when absent (Python-falsy); `cpu`
likewise. -/
structure BuildReq where
  repo : String
  ref : String
  name : String := ""
  memory : String := ""
  cpu : String := ""
  username : Option String := none
  password : Option String := none
  extra_buildargs : List String := []
  optional_envs : List (String × String) := []
  default_image_name : Option String := none
  optional_labels : List (String × String) := []

/-- Source `ref = ref or "HEAD"; if len(ref) >= 40: ref = ref[:7]`
(docker.py lines 96–98). -/
def normRef (ref : String) : String :=
  let r := if ref = "" then "HEAD" else ref
  if 40 ≤ r.length then ⟨r.data.take 7⟩ else r

/-- Resolution of `(name, image_name)` in `build_image`
(docker.py lines 100–107): a caller-forced `default_image_name` is used
verbatim for both; otherwise the `name` argument (or, when empty, the
stripped URL path of `repo`) is sanitized and suffixed with the
normalized ref. -/
def resolveNames (req : BuildReq) : String × String :=
  match req.default_image_name with
  | some d => (d, d)
  | none =>
    let n := if req.name = "" then pyStripSlash (urlparsePath req.repo) else req.name
    let n := sanitizeName n
    (n, n ++ ":" ++ normRef req.ref)

/-- The image name returned by `build_image`. -/
def buildImageName (req : BuildReq) : String := (resolveNames req).2

/-- The image name C3 predicts for requests without a forced name: always
derived from the repo URL path, ignoring the `name` argument.  Stated
from the spec's words for comparison with `resolveNames`. -/
def specImageNameC3 (req : BuildReq) : String :=
  match req.default_image_name with
  | some d => d
  | none => sanitizeName (pyStripSlash (urlparsePath req.repo)) ++ ":" ++ normRef req.ref

/-- Request used to refute C3 as stated: a non-empty `name` argument and
no `default_image_name`. -/
def reqC3x : BuildReq := { repo := "https://github.com/a/b", ref := "", name := "X" }

/-- Request for the C3 end-to-end example. -/
def reqC3e : BuildReq := { repo := "https://github.com/a/b", ref := "" }

/-! Label codec (docker.py lines 11–23 and 109–133). -/

/-- Engine label maps: association lists with first-match lookup; a Python
`dict.update` is modelled by prepending the updating entries, which is
lookup-equivalent. -/
abbrev LabelMap := List (String × String)

/-- Source expression stringifying memory with a G suffix if non-empty (docker.py line 110). -/
def encodeMem (m : String) : String := if m = "" then "" else m ++ "G"

/-- The `tljh_repo2docker.opt.`-prefixed optional label map
(docker.py line 122). -/
def optLabelMap (req : BuildReq) : LabelMap :=
  req.optional_labels.map (fun kv => ("tljh_repo2docker.opt." ++ kv.1, kv.2))

/-- The `desired_image_labels` map (docker.py lines 114–123): the four fixed
`tljh_repo2docker.*` entries updated with the optional label map. -/
def desired_image_labels (req : BuildReq) : LabelMap :=
  optLabelMap req ++
    [("tljh_repo2docker.display_name", (resolveNames req).1),
     ("tljh_repo2docker.image_name", (resolveNames req).2),
     ("tljh_repo2docker.mem_limit", encodeMem req.memory),
     ("tljh_repo2docker.cpu_limit", req.cpu)]

/-- The `builder_labels` map (docker.py lines 127–133): the `repo2docker.*` marker
labels updated with `desired_image_labels` and the optional label map. -/
def builder_labels (req : BuildReq) : LabelMap :=
  optLabelMap req ++ desired_image_labels req ++
    [("repo2docker.repo", req.repo),
     ("repo2docker.ref", normRef req.ref),
     ("repo2docker.build", (resolveNames req).2)]

/-- UTF-8 code units of one character, as natural numbers below 256. -/
def utf8Bytes (c : Char) : List Nat :=
  let n := c.toNat
  if n < 0x80 then [n]
  else if n < 0x800 then [0xC0 + n / 0x40, 0x80 + n % 0x40]
  else if n < 0x10000 then
    [0xE0 + n / 0x1000, 0x80 + (n / 0x40) % 0x40, 0x80 + n % 0x40]
  else
    [0xF0 + n / 0x40000, 0x80 + (n / 0x1000) % 0x40,
     0x80 + (n / 0x40) % 0x40, 0x80 + n % 0x40]

/-- Uppercase hexadecimal digit, as produced by `urllib.parse.quote`. -/
def hexDigit (n : Nat) : Char := if n < 10 then Char.ofNat (48 + n) else Char.ofNat (55 + n)

/-- Bytes `urllib.parse.quote` leaves unescaped: ASCII alphanumerics and
`_`, `.`, `-`, `~`. -/
def isQuoteSafe (b : Nat) : Bool :=
  (48 ≤ b && b ≤ 57) || (65 ≤ b && b ≤ 90) || (97 ≤ b && b ≤ 122) ||
    b == 95 || b == 46 || b == 45 || b == 126

/-- Encoding of one byte under `urllib.parse.quote_plus`: safe bytes kept,
space becomes `+`, everything else percent-escaped. -/
def quotePlusByte (b : Nat) : List Char :=
  if isQuoteSafe b then [Char.ofNat b]
  else if b == 32 then ['+']
  else ['%', hexDigit (b / 16), hexDigit (b % 16)]

/-- Python `urllib.parse.quote_plus` over the UTF-8 encoding of the string. -/
def quote_plus (s : String) : String :=
  ⟨(s.data.flatMap utf8Bytes).flatMap quotePlusByte⟩

/-- A Python `labels[key]` access: `KeyError` becomes `Except.error ()`. -/
def lookupE (l : LabelMap) (k : String) : Except Unit String :=
  match l.lookup k with
  | some v => Except.ok v
  | none => Except.error ()

/-- Function `get_optional_value` (docker.py lines 11–16): read the
`tljh_repo2docker.opt.provider.`-prefixed label, `None` when absent. -/
def get_optional_value (l : LabelMap) (key : String) : Option String :=
  l.lookup ("tljh_repo2docker.opt.provider." ++ key)

/-- Function `get_spawn_ref` (docker.py lines 19–23): percent-encode `repo#ref`. -/
def get_spawn_ref (l : LabelMap) : Except Unit String := do
  let repo ← lookupE l "repo2docker.repo"
  let ref ← lookupE l "repo2docker.ref"
  Except.ok (quote_plus (repo ++ "#" ++ ref))

/-- The `repo` field of a listing entry:
`get_optional_value(object, 'repo') or object["Labels"]["repo2docker.repo"]`.
Python's `or` is lazy, so the mandatory lookup only happens when the
optional value is falsy (`None` or the empty string). -/
def entryRepo (l : LabelMap) : Except Unit String :=
  match get_optional_value l "repo" with
  | some v => if v = "" then lookupE l "repo2docker.repo" else Except.ok v
  | none => lookupE l "repo2docker.repo"

/-- The `display_name` field of a listing entry:
`get_optional_value(object, 'display_name') or
object["Labels"]["tljh_repo2docker.display_name"]`. -/
def entryDisplayName (l : LabelMap) : Except Unit String :=
  match get_optional_value l "display_name" with
  | some v => if v = "" then lookupE l "tljh_repo2docker.display_name" else Except.ok v
  | none => lookupE l "tljh_repo2docker.display_name"

/-- One entry of the listings produced by `list_images` / `list_containers`. -/
structure ImageEntry where
  provider : Option String
  repo : String
  ref : String
  spawnref : String
  image_name : String
  display_name : String
  mem_limit : String
  cpu_limit : String
  status : String
  deriving DecidableEq

/-- The dictionary built for one image by `list_images`
(docker.py lines 35–45); any missing mandatory label raises `KeyError`. -/
def imageEntry (l : LabelMap) : Except Unit ImageEntry := do
  let repo ← entryRepo l
  let ref ← lookupE l "repo2docker.ref"
  let spawnref ← get_spawn_ref l
  let image_name ← lookupE l "tljh_repo2docker.image_name"
  let display_name ← entryDisplayName l
  let mem_limit ← lookupE l "tljh_repo2docker.mem_limit"
  let cpu_limit ← lookupE l "tljh_repo2docker.cpu_limit"
  Except.ok
    { provider := l.lookup "tljh_repo2docker.opt.provider", repo, ref, spawnref,
      image_name, display_name, mem_limit, cpu_limit, status := "built" }

/-- Decode each object of a listing in order; the first `KeyError`
aborts the whole query (the Python list comprehension's behaviour). -/
def decodeAll (f : LabelMap → Except Unit ImageEntry) :
    List LabelMap → Except Unit (List ImageEntry)
  | [] => Except.ok []
  | l :: ls => do
    let e ← f l
    let es ← decodeAll f ls
    Except.ok (e :: es)

/-- Function `list_images` (docker.py lines 26–49) applied to the engine's answer
to the filtered listing (non-dangling images carrying `repo2docker.ref`):
keep only images whose labels contain `tljh_repo2docker.image_name`, then
decode each; a `KeyError` inside any entry fails the whole listing. -/
def list_images (imgs : List LabelMap) : Except Unit (List ImageEntry) :=
  decodeAll imageEntry
    (imgs.filter (fun l => (l.lookup "tljh_repo2docker.image_name").isSome))

/-- The dictionary built for one build container by `list_containers`
(docker.py lines 62–72). -/
def containerEntry (l : LabelMap) : Except Unit ImageEntry := do
  let repo ← entryRepo l
  let ref ← lookupE l "repo2docker.ref"
  let spawnref ← get_spawn_ref l
  let image_name ← lookupE l "repo2docker.build"
  let display_name ← entryDisplayName l
  let mem_limit ← lookupE l "tljh_repo2docker.mem_limit"
  let cpu_limit ← lookupE l "tljh_repo2docker.cpu_limit"
  Except.ok
    { provider := l.lookup "tljh_repo2docker.opt.provider", repo, ref, spawnref,
      image_name, display_name, mem_limit, cpu_limit, status := "building" }

/-- Function `list_containers` (docker.py lines 52–76): keep only containers whose
labels contain `repo2docker.build`, then decode each. -/
def list_containers (cs : List LabelMap) : Except Unit (List ImageEntry) :=
  decodeAll containerEntry
    (cs.filter (fun l => (l.lookup "repo2docker.build").isSome))

/-! Engine inspect results and label reading (init.py lines 166–173 and
326–330). -/

/-- A `Config` / `ContainerConfig` section of an engine inspect result: a
JSON object that may carry a `Labels` key and possibly other keys; Python
truthiness of the object is non-emptiness. -/
structure EngineConfigDict where
  labels : Option LabelMap := none
  otherKeys : Bool := false
  deriving DecidableEq

/-- Python truthiness of a config dictionary: it has some key. -/
def configTruthy (c : EngineConfigDict) : Bool := c.labels.isSome || c.otherKeys

/-- An engine image-inspect result, reduced to its two config sections;
`none` means the key is absent. -/
structure ImageInspect where
  containerConfig : Option EngineConfigDict := none
  config : Option EngineConfigDict := none
  deriving DecidableEq

/-- Function `_get_image_labels` (init.py lines 326–330):
`config = image.get("ContainerConfig", None); if not config:
config = image.get("Config", {}); return config.get("Labels", {})`. -/
def _get_image_labels (img : ImageInspect) : LabelMap :=
  let cfg := match img.containerConfig with
    | some c => if configTruthy c then some c else img.config
    | none => img.config
  match cfg with
  | some c => c.labels.getD []
  | none => []

/-- The identical inline label read in `set_limits` (init.py lines
168–171). -/
def setLimitsLabelSource (img : ImageInspect) : LabelMap :=
  let cfg := match img.containerConfig with
    | some c => if configTruthy c then some c else img.config
    | none => img.config
  match cfg with
  | some c => c.labels.getD []
  | none => []

/-- The label source C6 describes, stated from the spec's words: read
`Config.Labels`, falling back to `ContainerConfig.Labels` only when
`Config` is absent. -/
def specConfigLabelsC6 (img : ImageInspect) : LabelMap :=
  match img.config with
  | some c => c.labels.getD []
  | none =>
    match img.containerConfig with
    | some c => c.labels.getD []
    | none => []

/-! Session limits (init.py lines 161–187). -/

/-- The fixed CFS scheduling period (init.py line 27). -/
def CPU_PERIOD : ℤ := 100000

/-- Python `int()` on a real value: truncation toward zero. -/
def pyInt (q : ℚ) : ℤ := if 0 ≤ q then ⌊q⌋ else ⌈q⌉

/-- The spawner state `set_limits` reads and mutates: the configured
memory and CPU limits and the `extra_host_config` quota entries (`none`
means unset; a CPU limit of `some 0` models Python `0.0`, falsy like
`None`). -/
structure SpawnerLimits where
  mem_limit : Option String := none
  cpu_limit : Option ℚ := none
  cpu_period : Option ℤ := none
  cpu_quota : Option ℤ := none
  deriving DecidableEq

/-- Function `set_limits` (init.py lines 161–187), given the image's
`tljh_repo2docker.mem_limit` label and the parsed
`tljh_repo2docker.cpu_limit` label (`none` models an absent or empty
label, both Python-falsy; `some q` models `float(cpu_limit)` of a
non-empty label).  A truthy mem label overrides `mem_limit`; a truthy cpu
label overrides `cpu_limit`; a truthy effective `cpu_limit` sets
`cpu_period` and `cpu_quota = int(float(CPU_PERIOD) * cpu_limit)`. -/
def set_limits (memLabel : Option String) (cpuLabel : Option ℚ)
    (s : SpawnerLimits) : SpawnerLimits :=
  let s1 := match memLabel with
    | some m => if m = "" then s else { s with mem_limit := some m }
    | none => s
  let s2 := match cpuLabel with
    | some c => { s1 with cpu_limit := some c }
    | none => s1
  match s2.cpu_limit with
  | some c =>
    if c ≠ 0 then
      { s2 with cpu_period := some CPU_PERIOD,
                cpu_quota := some (pyInt ((CPU_PERIOD : ℚ) * c)) }
    else s2
  | none => s2

/-! Build container environment (docker.py lines 155–185). -/

/-- The `Env` of the build container's run config: the caller's optional
environment variables, replaced by the single `GIT_CREDENTIAL_ENV`
variable when both credentials are supplied and non-empty. -/
def build_config_env (req : BuildReq) : List String :=
  let envs := req.optional_envs.map (fun kv => kv.1 ++ "=" ++ kv.2)
  match req.username, req.password with
  | some u, some p =>
    if u ≠ "" && p ≠ "" then
      ["GIT_CREDENTIAL_ENV=username=" ++ u ++ "\npassword=" ++ p]
    else envs
  | _, _ => envs

/-! Build orchestration engine state (docker.py lines 187–234). -/

/-- The engine's image store together with counters for the observable
effects the claims speak about: build-tool container runs and label
commits.  Image keys are full `repository:tag` references. -/
structure IEngine where
  images : List (String × LabelMap) := []
  buildRuns : Nat := 0
  commits : Nat := 0
  deriving DecidableEq

/-- The engine's resolution of an image reference: a tagless name means
`name:latest`.  `image_name.split(":", 1)` rejoined with a defaulted
`latest` tag (docker.py line 205) and `images.get(image_name)` agree on
this reference. -/
def dockerImageRef (n : String) : String :=
  if n.data.contains ':' then n else n ++ ":latest"

/-- Source check `all(current_labels.get(key) == value for key, value in
expected_labels.items())` (docker.py line 197). -/
def labelsMatch (current expected : LabelMap) : Bool :=
  expected.all (fun kv => current.lookup kv.1 == some kv.2)

/-- Function `ensure_image_labels` (docker.py lines 189–213): inspect the cached
image (failure is fatal and re-raised); if every expected label already
matches, do nothing; otherwise commit, under the same repository:tag, a
layer carrying the merged (existing updated with expected) labels.  The
throwaway container create/commit/delete triple is modelled as one commit
effect. -/
def ensure_image_labels (e : IEngine) (iname : String) (expected : LabelMap) :
    Except Unit IEngine :=
  match e.images.lookup (dockerImageRef iname) with
  | none => Except.error ()
  | some current =>
    if labelsMatch current expected then Except.ok e
    else
      Except.ok
        { e with
          images := (dockerImageRef iname, expected ++ current) :: e.images,
          commits := e.commits + 1 }

/-- Function `build_image` and its engine interaction (docker.py lines 215–234): if the
target image name already resolves, reconcile its labels and return the
name; otherwise run the build-tool container (whose resulting image
carries the opaque label set `builtLabels` produced by the tool) and
return the name. -/
def build_image (req : BuildReq) (builtLabels : LabelMap) (e : IEngine) :
    Except Unit (String × IEngine) :=
  let iname := buildImageName req
  match e.images.lookup (dockerImageRef iname) with
  | some _ =>
    match ensure_image_labels e iname (builder_labels req) with
    | Except.ok e2 => Except.ok (iname, e2)
    | Except.error u => Except.error u
  | none =>
    Except.ok
      (iname,
        { e with
          images := (dockerImageRef iname, builtLabels) :: e.images,
          buildRuns := e.buildRuns + 1 })

/-! Sidecar container engine state (init.py lines 205–330 and 351–356). -/

/-- A container as the sidecar manager sees it: engine id, name, running
state, whether the detached terminate exec has been issued, and an
engine-injected error status for a delete attempt (modelling the races the
source absorbs). -/
structure RContainer where
  cid : Nat
  cname : String
  running : Bool
  terminateSignalled : Bool := false
  deleteError : Option Nat := none
  deriving DecidableEq

/-- The engine's container store. -/
structure CEngine where
  containers : List RContainer := []
  nextId : Nat := 0
  deriving DecidableEq

/-- Engine call `docker.containers.get(name)` resolved to a container. -/
def findByName (e : CEngine) (n : String) : Option RContainer :=
  e.containers.find? (fun c => c.cname == n)

/-- Engine call `docker.containers.get(id)` resolved to a container. -/
def findById (e : CEngine) (i : Nat) : Option RContainer :=
  e.containers.find? (fun c => c.cid == i)

/-- Function `get_rdmfs_object` (init.py lines 244–264): look up the container
named `{container_name}_rdmfs`; a 404 (gone) or 500 (unhealthy node) is
absorbed and yields `None`, modelled as the name not resolving. -/
def get_rdmfs_object (e : CEngine) (sessionName : String) : Option Nat :=
  (findByName e (sessionName ++ "_rdmfs")).map RContainer.cid

/-- Function `remove_object_by_id` (init.py lines 300–324): a vanished container
(404 on get) is absorbed; a running container is sent the detached
`xattr -w command terminate /mnt/rdm` exec and is NOT deleted; a
non-running container is deleted, with engine statuses 409 (removal in
progress) and 404 absorbed and any other status re-raised. -/
def remove_object_by_id (e : CEngine) (i : Nat) : Except Nat CEngine :=
  match findById e i with
  | none => Except.ok e
  | some c =>
    if c.running then
      Except.ok
        { e with
          containers := e.containers.map
            (fun d => if d.cid == i then { d with terminateSignalled := true } else d) }
    else
      match c.deleteError with
      | none =>
        Except.ok { e with containers := e.containers.filter (fun d => !(d.cid == i)) }
      | some 409 => Except.ok e
      | some 404 => Except.ok e
      | some code => Except.error code

/-- Function `create_rdmfs_object` (init.py lines 266–293): create a container
with the sidecar name; the engine rejects a duplicate name with a 409
conflict. -/
def create_rdmfs_object (e : CEngine) (n : String) : Except Nat (Nat × CEngine) :=
  if (findByName e n).isSome then Except.error 409
  else
    Except.ok
      (e.nextId,
        { e with
          nextId := e.nextId + 1,
          containers := { cid := e.nextId, cname := n, running := false } :: e.containers })

/-- Function `start_object_by_id` (init.py lines 295–298). -/
def start_object_by_id (e : CEngine) (i : Nat) : Except Nat CEngine :=
  match findById e i with
  | none => Except.error 404
  | some _ =>
    Except.ok
      { e with
        containers := e.containers.map
          (fun d => if d.cid == i then { d with running := true } else d) }

/-- The sidecar reconcile-create-start sequence at the end of
`_set_rdm_mounts` (init.py lines 229–242): look up an existing sidecar by
name, pass it to `remove_object_by_id` when found, then create and start
a fresh sidecar under the same name. -/
def sidecarCycle (e : CEngine) (sessionName : String) : Except Nat (Nat × CEngine) := do
  let e1 ← match get_rdmfs_object e sessionName with
    | some i => remove_object_by_id e i
    | none => Except.ok e
  let r ← create_rdmfs_object e1 (sessionName ++ "_rdmfs")
  let e3 ← start_object_by_id r.2 r.1
  Except.ok (r.1, e3)

/-- The sidecar part of `Repo2DockerSpawner.stop` (init.py lines
351–356): after the session container stops, look up the sidecar and, if
it resolves, pass it to `remove_object_by_id`. -/
def stop_teardown (e : CEngine) (sessionName : String) : Except Nat CEngine :=
  match get_rdmfs_object e sessionName with
  | none => Except.ok e
  | some i => remove_object_by_id e i

/-- Number of containers carrying a given name. -/
def countNamed (e : CEngine) (n : String) : Nat :=
  (e.containers.filter (fun c => c.cname == n)).length

/-- Engine invariant: container names are unique (the engine's namespace
is the serialization point). -/
def namesUnique (e : CEngine) : Prop :=
  e.containers.Pairwise (fun a b => a.cname ≠ b.cname)

/-- Engine invariant: container ids are unique and below `nextId`. -/
def idsFresh (e : CEngine) : Prop :=
  e.containers.Pairwise (fun a b => a.cid ≠ b.cid) ∧
    ∀ c ∈ e.containers, c.cid < e.nextId

/-! Concrete inputs used by counterexamples and witnesses. -/

/-- Inspect result with both config sections present and carrying
different labels, separating the two read orders. -/
def imgC6x : ImageInspect :=
  { containerConfig := some { labels := some [("tljh_repo2docker.mem_limit", "1G")] },
    config := some { labels := some [("tljh_repo2docker.mem_limit", "2G")] } }

/-- The engine state after the detached terminate exec has been issued
against container `i`: the container is only marked, never removed. -/
def signalTerminate (e : CEngine) (i : Nat) : CEngine :=
  { e with
    containers := e.containers.map
      (fun d => if d.cid == i then { d with terminateSignalled := true } else d) }

/-- C5 (counterexample): an engine answer with one image that carries the
marker `repo2docker.ref` and the mandatory `tljh_repo2docker.image_name`
but lacks `tljh_repo2docker.mem_limit`. -/
def imgsC5x : List LabelMap :=
  [[("repo2docker.ref", "HEAD"), ("repo2docker.repo", "https://github.com/a/b"),
    ("tljh_repo2docker.image_name", "a-b:HEAD"), ("tljh_repo2docker.display_name", "a-b")]]

/-- Labels refuting C10 as stated: `tljh_repo2docker.opt.provider.repo`
is present but empty, so the code falls back to `repo2docker.repo`. -/
def lblC10x : LabelMap :=
  [("tljh_repo2docker.opt.provider.repo", ""), ("repo2docker.repo", "https://base"),
   ("repo2docker.ref", "r"), ("tljh_repo2docker.image_name", "i"),
   ("tljh_repo2docker.display_name", "d"), ("tljh_repo2docker.mem_limit", ""),
   ("tljh_repo2docker.cpu_limit", "")]

/-- Engine refuting C2 as stated: one prior sidecar for session
`jupyter-alice`, still running. -/
def eC2x : CEngine :=
  { containers := [{ cid := 0, cname := "jupyter-alice_rdmfs", running := true }],
    nextId := 1 }

/-! Theorems. -/

/-- C3 (counterexample): with a non-empty `name` argument
(`name="X"`, `repo="https://github.com/a/b"`, `ref=""`, no
`default_image_name`) `build_image` resolves the image name to `"x:HEAD"`
from the `name` argument, not to the repo-path-derived `"a-b:HEAD"` the
claim predicts for every call without a `default_image_name`. -/
theorem C3_claim_cex : buildImageName reqC3x ≠ specImageNameC3 reqC3x := by decide

/-- C3 (amended): the returned image name is exactly
`default_image_name` when one is provided (regardless of repo);
otherwise it is the sanitized caller-supplied `name` when non-empty, else
the sanitized repo URL path (lowercased, `/` replaced by `-`), followed
by `:` and the normalized ref, where ref defaults to `"HEAD"` when empty
and is truncated to its first 7 characters when it has 40 or more
characters (a shorter ref unchanged); in particular
`repo="https://github.com/a/b"` with `ref=""` and empty `name` yields
`"a-b:HEAD"`. -/
theorem C3_image_name_resolution (req : BuildReq) :
    (∀ d, req.default_image_name = some d → buildImageName req = d) ∧
    (req.default_image_name = none →
      buildImageName req =
        sanitizeName (if req.name = "" then pyStripSlash (urlparsePath req.repo) else req.name)
          ++ ":" ++ normRef req.ref) ∧
    normRef "" = "HEAD" ∧
    (req.ref ≠ "" → req.ref.length < 40 → normRef req.ref = req.ref) ∧
    (40 ≤ req.ref.length → normRef req.ref = ⟨req.ref.data.take 7⟩) ∧
    buildImageName reqC3e = "a-b:HEAD" := by
  refine ⟨?_, ?_, by decide, ?_, ?_, by decide⟩
  · intro d hd
    simp [buildImageName, resolveNames, hd]
  · intro hd
    simp [buildImageName, resolveNames, hd]
  · intro h1 h2
    simp only [normRef, if_neg h1]
    rw [if_neg (by omega)]
  · intro h40
    have h1 : req.ref ≠ "" := by
      intro h
      rw [h] at h40
      simp [String.length] at h40
    simp only [normRef, if_neg h1]
    rw [if_pos h40]

/-- C3 (witness): the amended theorem applied at concrete inputs: a
forced name wins, and a 10-character ref is left unchanged. -/
theorem C3_witness :
    buildImageName { repo := "https://x/y", ref := "", default_image_name := some "custom:tag" }
      = "custom:tag" ∧
    normRef "abcdefghij" = "abcdefghij" := by
  constructor
  · exact (C3_image_name_resolution
      { repo := "https://x/y", ref := "", default_image_name := some "custom:tag" }).1
      "custom:tag" rfl
  · exact (C3_image_name_resolution { repo := "", ref := "abcdefghij" }).2.2.2.1
      (by decide) (by decide)

/-- C7: when both a username and a password are supplied and non-empty,
the build container's environment is exactly the single variable
`GIT_CREDENTIAL_ENV` holding the two-line `username=...\npassword=...`
string, replacing every caller-supplied optional environment variable;
when at most one credential is supplied (or one is empty), the
environment is exactly the caller's optional variables and no credential
variable is injected. -/
theorem C7_credential_env (req : BuildReq) :
    (∀ u p, req.username = some u → req.password = some p → u ≠ "" → p ≠ "" →
      build_config_env req =
        ["GIT_CREDENTIAL_ENV=username=" ++ u ++ "\npassword=" ++ p]) ∧
    (¬(pyTruthy req.username = true ∧ pyTruthy req.password = true) →
      build_config_env req = req.optional_envs.map (fun kv => kv.1 ++ "=" ++ kv.2)) := by
  constructor
  · intro u p hu hp hne hpe
    simp [build_config_env, hu, hp, hne, hpe]
  · intro h
    unfold build_config_env
    cases hu : req.username with
    | none => simp
    | some u =>
      cases hp : req.password with
      | none => simp
      | some p =>
        rw [hu, hp] at h
        simp only [pyTruthy] at h
        by_cases hue : u = ""
        · simp [hue]
        · have hpe : p = "" := by
            by_contra hpe
            exact h ⟨by simp [hue], by simp [hpe]⟩
          simp [hpe]

/-- C7 (witness): the theorem applied with both credentials supplied and
with only one supplied. -/
theorem C7_witness :
    build_config_env
      { repo := "r", ref := "", username := some "u", password := some "p",
        optional_envs := [("A", "1")] }
      = ["GIT_CREDENTIAL_ENV=username=u\npassword=p"] ∧
    build_config_env
      { repo := "r", ref := "", username := some "u", optional_envs := [("A", "1")] }
      = ["A=1"] := by
  constructor
  · exact (C7_credential_env _).1 "u" "p" rfl rfl (by decide) (by decide)
  · exact (C7_credential_env
      { repo := "r", ref := "", username := some "u", optional_envs := [("A", "1")] }).2
      (by simp [pyTruthy])

/-- C8: a non-empty `tljh_repo2docker.mem_limit` label overrides the
configured memory limit and a non-empty `cpu_limit` label overrides the
configured CPU limit; whenever the effective CPU limit (image-provided or
pre-configured, a nonnegative quantity) is non-zero, `set_limits` sets
`cpu_period` to exactly 100000 and `cpu_quota` to
`floor(100000 * cpu_limit)` (so 1.5 yields 150000), while an effective
CPU limit of 0 or absent leaves quota and period untouched. -/
theorem C8_set_limits (memLabel : Option String) (cpuLabel : Option ℚ) (s : SpawnerLimits) :
    (∀ m, memLabel = some m → m ≠ "" →
      (set_limits memLabel cpuLabel s).mem_limit = some m) ∧
    (∀ c, cpuLabel = some c → (set_limits memLabel cpuLabel s).cpu_limit = some c) ∧
    (∀ c, cpuLabel = some c → c ≠ 0 → 0 ≤ c →
      (set_limits memLabel cpuLabel s).cpu_period = some 100000 ∧
      (set_limits memLabel cpuLabel s).cpu_quota = some ⌊(100000 : ℚ) * c⌋) ∧
    (∀ c, cpuLabel = none → s.cpu_limit = some c → c ≠ 0 → 0 ≤ c →
      (set_limits memLabel cpuLabel s).cpu_period = some 100000 ∧
      (set_limits memLabel cpuLabel s).cpu_quota = some ⌊(100000 : ℚ) * c⌋) ∧
    (cpuLabel = none → (s.cpu_limit = some 0 ∨ s.cpu_limit = none) →
      (set_limits memLabel cpuLabel s).cpu_period = s.cpu_period ∧
      (set_limits memLabel cpuLabel s).cpu_quota = s.cpu_quota) := by
  have hper : ((CPU_PERIOD : ℚ)) = (100000 : ℚ) := by norm_num [CPU_PERIOD]
  have hfloor : ∀ c : ℚ, 0 ≤ c → pyInt ((100000 : ℚ) * c) = ⌊(100000 : ℚ) * c⌋ := by
    intro c hc
    rw [pyInt, if_pos (by positivity)]
  refine ⟨?_, ?_, ?_, ?_, ?_⟩
  · intro m hm hne
    cases hcl : cpuLabel with
    | none =>
      simp only [set_limits, hm, hcl, if_neg hne]
      cases h2 : s.cpu_limit with
      | none => simp
      | some c =>
        by_cases hc : c = 0
        · simp [h2, hc]
        · simp [h2, hc]
    | some c =>
      simp only [set_limits, hm, hcl, if_neg hne]
      by_cases hc : c = 0
      · simp [hc]
      · simp [hc]
  · intro c hc
    cases hm : memLabel with
    | none =>
      simp only [set_limits, hm, hc]
      by_cases h0 : c = 0
      · simp [h0]
      · simp [h0]
    | some m =>
      by_cases hme : m = ""
      · simp only [set_limits, hm, hc, if_pos hme]
        by_cases h0 : c = 0
        · simp [h0]
        · simp [h0]
      · simp only [set_limits, hm, hc, if_neg hme]
        by_cases h0 : c = 0
        · simp [h0]
        · simp [h0]
  · intro c hc h0 hcn
    cases hm : memLabel with
    | none => simp [set_limits, hm, hc, h0, hfloor c hcn, CPU_PERIOD]
    | some m =>
      by_cases hme : m = ""
      · simp [set_limits, hm, hc, h0, hme, hfloor c hcn, CPU_PERIOD]
      · simp [set_limits, hm, hc, h0, hme, hfloor c hcn, CPU_PERIOD]
  · intro c hc hs h0 hcn
    cases hm : memLabel with
    | none => simp [set_limits, hm, hc, hs, h0, hfloor c hcn, CPU_PERIOD]
    | some m =>
      by_cases hme : m = ""
      · simp [set_limits, hm, hc, hs, h0, hme, hfloor c hcn, CPU_PERIOD]
      · simp [set_limits, hm, hc, hs, h0, hme, hfloor c hcn, CPU_PERIOD]
  · intro hc hs
    cases hm : memLabel with
    | none =>
      cases hs with
      | inl h => simp [set_limits, hm, hc, h]
      | inr h => simp [set_limits, hm, hc, h]
    | some m =>
      by_cases hme : m = ""
      · cases hs with
        | inl h => simp [set_limits, hm, hc, h, hme]
        | inr h => simp [set_limits, hm, hc, h, hme]
      · cases hs with
        | inl h => simp [set_limits, hm, hc, h, hme]
        | inr h => simp [set_limits, hm, hc, h, hme]

/-- C8 (witness): the theorem applied with a cpu label of 3/2 (quota
150000) and with everything absent (quota and period stay unset). -/
theorem C8_witness :
    (set_limits none (some (3 / 2)) {}).cpu_quota = some 150000 ∧
    (set_limits none (some (3 / 2)) {}).cpu_period = some 100000 ∧
    (set_limits none none {}).cpu_quota = none ∧
    (set_limits none none {}).cpu_period = none := by
  have h := (C8_set_limits none (some (3 / 2)) {}).2.2.1 (3 / 2) rfl (by norm_num) (by norm_num)
  have h2 := (C8_set_limits none none {}).2.2.2.2 rfl (Or.inr rfl)
  refine ⟨?_, h.1, h2.2, h2.1⟩
  rw [h.2]
  norm_num

/-- C6 (counterexample): on an inspect result carrying both a (truthy)
`ContainerConfig` and a `Config` with different labels, `set_limits` and
`_get_image_labels` read the `ContainerConfig` labels, not the `Config`
labels the claim prescribes. -/
theorem C6_claim_cex :
    setLimitsLabelSource imgC6x ≠ specConfigLabelsC6 imgC6x ∧
    _get_image_labels imgC6x ≠ specConfigLabelsC6 imgC6x ∧
    setLimitsLabelSource imgC6x = [("tljh_repo2docker.mem_limit", "1G")] ∧
    specConfigLabelsC6 imgC6x = [("tljh_repo2docker.mem_limit", "2G")] := by
  refine ⟨by decide, by decide, rfl, rfl⟩

/-- C6 (amended): `set_limits` and the shared `_get_image_labels` helper
read `ContainerConfig.Labels` first, falling back to `Config.Labels` only
when `ContainerConfig` is absent or empty (Python-falsy) — the opposite
preference order of the one the claim states. -/
theorem C6_label_source (img : ImageInspect) :
    (∀ c, img.containerConfig = some c → configTruthy c = true →
      _get_image_labels img = c.labels.getD [] ∧
      setLimitsLabelSource img = c.labels.getD []) ∧
    ((img.containerConfig = none ∨
        ∃ c, img.containerConfig = some c ∧ configTruthy c = false) →
      _get_image_labels img = (img.config.map (fun c => c.labels.getD [])).getD [] ∧
      setLimitsLabelSource img = (img.config.map (fun c => c.labels.getD [])).getD []) := by
  constructor
  · intro c hc ht
    constructor
    · simp [_get_image_labels, hc, ht]
    · simp [setLimitsLabelSource, hc, ht]
  · intro h
    have key : (match img.containerConfig with
        | some c => if configTruthy c then some c else img.config
        | none => img.config) = img.config := by
      cases h with
      | inl hn => simp [hn]
      | inr he =>
        obtain ⟨c, hc, ht⟩ := he
        simp [hc, ht]
    constructor
    · rw [_get_image_labels, key]
      cases img.config <;> simp
    · rw [setLimitsLabelSource, key]
      cases img.config <;> simp

/-- C6 (witness): the amended theorem applied to an inspect result with a
truthy `ContainerConfig` and to one where only `Config` is present. -/
theorem C6_witness :
    _get_image_labels imgC6x = [("tljh_repo2docker.mem_limit", "1G")] ∧
    _get_image_labels { config := some { labels := some [("a", "b")] } } = [("a", "b")] := by
  constructor
  · exact ((C6_label_source imgC6x).1 _ rfl rfl).1
  · exact ((C6_label_source { config := some { labels := some [("a", "b")] } }).2
      (Or.inl rfl)).1

/-- C5 (counterexample): an image missing a mandatory label other than
`tljh_repo2docker.image_name` is NOT skipped per object: the `KeyError`
on `tljh_repo2docker.mem_limit` fails the whole `list_images` query. -/
theorem C5_claim_cex :
    (imgsC5x.head?.map (fun l => l.lookup "tljh_repo2docker.image_name"))
      = some (some "a-b:HEAD") ∧
    list_images imgsC5x = Except.error () := ⟨rfl, rfl⟩

/-- C5 (amended): only a missing `tljh_repo2docker.image_name` label
causes an image to be skipped per object: an image carrying
`repo2docker.ref` but missing `tljh_repo2docker.image_name` never appears
in the output and never causes an error (the listing is the same as
without it); an image that passes that guard but misses another mandatory
label makes the whole query fail with a `KeyError`. -/
theorem C5_missing_image_name_skipped (imgs1 imgs2 : List LabelMap) (lbad : LabelMap)
    (h : lbad.lookup "tljh_repo2docker.image_name" = none) :
    list_images (imgs1 ++ lbad :: imgs2) = list_images (imgs1 ++ imgs2) := by
  simp [list_images, List.filter_append, List.filter_cons, h]

/-- C5 (witness): the amended theorem applied to a listing with one fully
labeled image and one image missing `tljh_repo2docker.image_name`. -/
theorem C5_witness :
    list_images
        [[("repo2docker.ref", "HEAD"), ("repo2docker.repo", "r"),
          ("tljh_repo2docker.image_name", "i"), ("tljh_repo2docker.display_name", "d"),
          ("tljh_repo2docker.mem_limit", ""), ("tljh_repo2docker.cpu_limit", "")],
         [("repo2docker.ref", "HEAD")]]
      = list_images
        [[("repo2docker.ref", "HEAD"), ("repo2docker.repo", "r"),
          ("tljh_repo2docker.image_name", "i"), ("tljh_repo2docker.display_name", "d"),
          ("tljh_repo2docker.mem_limit", ""), ("tljh_repo2docker.cpu_limit", "")]] :=
  C5_missing_image_name_skipped
    [[("repo2docker.ref", "HEAD"), ("repo2docker.repo", "r"),
      ("tljh_repo2docker.image_name", "i"), ("tljh_repo2docker.display_name", "d"),
      ("tljh_repo2docker.mem_limit", ""), ("tljh_repo2docker.cpu_limit", "")]]
    [] [("repo2docker.ref", "HEAD")] rfl

/-- Every entry of a successful `decodeAll` run decodes from some object
of the input listing. -/
theorem decodeAll_provenance (f : LabelMap → Except Unit ImageEntry) :
    ∀ (ls : List LabelMap) (es : List ImageEntry), decodeAll f ls = Except.ok es →
      ∀ e ∈ es, ∃ l ∈ ls, f l = Except.ok e := by
  intro ls
  induction ls with
  | nil =>
    intro es h e he
    simp only [decodeAll, Except.ok.injEq] at h
    subst h
    simp at he
  | cons l ls ih =>
    intro es h e he
    simp only [decodeAll, bind, Except.bind] at h
    cases hf : f l with
    | error u => rw [hf] at h; simp at h
    | ok e1 =>
      rw [hf] at h
      cases hd : decodeAll f ls with
      | error u => rw [hd] at h; simp at h
      | ok es1 =>
        rw [hd] at h
        simp only [Except.ok.injEq] at h
        subst h
        rcases List.mem_cons.mp he with he1 | he2
        · exact ⟨l, List.mem_cons_self l ls, he1 ▸ hf⟩
        · obtain ⟨l2, hl2, hfl2⟩ := ih es1 hd e he2
          exact ⟨l2, List.mem_cons_of_mem l hl2, hfl2⟩

/-- A successfully decoded image entry carries exactly the `repo` and
`display_name` computed by `entryRepo` / `entryDisplayName` on its
labels. -/
theorem imageEntry_fields (l : LabelMap) (e : ImageEntry)
    (h : imageEntry l = Except.ok e) :
    entryRepo l = Except.ok e.repo ∧ entryDisplayName l = Except.ok e.display_name := by
  simp only [imageEntry, bind, Except.bind] at h
  cases h1 : entryRepo l with
  | error u => rw [h1] at h; simp at h
  | ok repo =>
    rw [h1] at h
    cases h2 : lookupE l "repo2docker.ref" with
    | error u => rw [h2] at h; simp at h
    | ok ref =>
      rw [h2] at h
      cases h3 : get_spawn_ref l with
      | error u => rw [h3] at h; simp at h
      | ok sp =>
        rw [h3] at h
        cases h4 : lookupE l "tljh_repo2docker.image_name" with
        | error u => rw [h4] at h; simp at h
        | ok iname =>
          rw [h4] at h
          cases h5 : entryDisplayName l with
          | error u => rw [h5] at h; simp at h
          | ok dn =>
            rw [h5] at h
            cases h6 : lookupE l "tljh_repo2docker.mem_limit" with
            | error u => rw [h6] at h; simp at h
            | ok mem =>
              rw [h6] at h
              cases h7 : lookupE l "tljh_repo2docker.cpu_limit" with
              | error u => rw [h7] at h; simp at h
              | ok cpu =>
                rw [h7] at h
                simp only [Except.ok.injEq] at h
                subst h
                exact ⟨by rfl, by rfl⟩

/-- A successfully decoded container entry carries exactly the `repo` and
`display_name` computed by `entryRepo` / `entryDisplayName` on its
labels. -/
theorem containerEntry_fields (l : LabelMap) (e : ImageEntry)
    (h : containerEntry l = Except.ok e) :
    entryRepo l = Except.ok e.repo ∧ entryDisplayName l = Except.ok e.display_name := by
  simp only [containerEntry, bind, Except.bind] at h
  cases h1 : entryRepo l with
  | error u => rw [h1] at h; simp at h
  | ok repo =>
    rw [h1] at h
    cases h2 : lookupE l "repo2docker.ref" with
    | error u => rw [h2] at h; simp at h
    | ok ref =>
      rw [h2] at h
      cases h3 : get_spawn_ref l with
      | error u => rw [h3] at h; simp at h
      | ok sp =>
        rw [h3] at h
        cases h4 : lookupE l "repo2docker.build" with
        | error u => rw [h4] at h; simp at h
        | ok iname =>
          rw [h4] at h
          cases h5 : entryDisplayName l with
          | error u => rw [h5] at h; simp at h
          | ok dn =>
            rw [h5] at h
            cases h6 : lookupE l "tljh_repo2docker.mem_limit" with
            | error u => rw [h6] at h; simp at h
            | ok mem =>
              rw [h6] at h
              cases h7 : lookupE l "tljh_repo2docker.cpu_limit" with
              | error u => rw [h7] at h; simp at h
              | ok cpu =>
                rw [h7] at h
                simp only [Except.ok.injEq] at h
                subst h
                exact ⟨by rfl, by rfl⟩

/-- C10 (counterexample): on an image whose
`tljh_repo2docker.opt.provider.repo` label is present but empty,
`list_images` reports `repo` from `repo2docker.repo`, not the present
optional label's (empty) value as the claim predicts. -/
theorem C10_claim_cex :
    lblC10x.lookup "tljh_repo2docker.opt.provider.repo" = some "" ∧
    Except.map (List.map ImageEntry.repo) (list_images [lblC10x])
      = Except.ok ["https://base"] ∧
    ("https://base" : String) ≠ "" := ⟨rfl, rfl, by decide⟩

/-- C10 (amended): in both `list_images` and `list_containers` every
returned entry's `repo` and `display_name` are computed by
`entryRepo` / `entryDisplayName` on that object's labels, and those
functions return the value of `tljh_repo2docker.opt.provider.repo`
(resp. `...provider.display_name`) when that label is present with a
NON-EMPTY value, and fall back to `repo2docker.repo`
(resp. `tljh_repo2docker.display_name`) when the optional label is
absent or present but empty — Python's `or` treats the empty string like
an absent value. -/
theorem C10_provider_override (ls cs : List LabelMap) (es fs : List ImageEntry)
    (hi : list_images ls = Except.ok es) (hc : list_containers cs = Except.ok fs) :
    (∀ e ∈ es, ∃ l ∈ ls,
      entryRepo l = Except.ok e.repo ∧ entryDisplayName l = Except.ok e.display_name) ∧
    (∀ e ∈ fs, ∃ l ∈ cs,
      entryRepo l = Except.ok e.repo ∧ entryDisplayName l = Except.ok e.display_name) ∧
    (∀ (l : LabelMap) v, l.lookup "tljh_repo2docker.opt.provider.repo" = some v →
      v ≠ "" → entryRepo l = Except.ok v) ∧
    (∀ l : LabelMap, (l.lookup "tljh_repo2docker.opt.provider.repo" = none ∨
        l.lookup "tljh_repo2docker.opt.provider.repo" = some "") →
      entryRepo l = lookupE l "repo2docker.repo") ∧
    (∀ (l : LabelMap) v, l.lookup "tljh_repo2docker.opt.provider.display_name" = some v →
      v ≠ "" → entryDisplayName l = Except.ok v) ∧
    (∀ l : LabelMap, (l.lookup "tljh_repo2docker.opt.provider.display_name" = none ∨
        l.lookup "tljh_repo2docker.opt.provider.display_name" = some "") →
      entryDisplayName l = lookupE l "tljh_repo2docker.display_name") := by
  have hrepoName : ("tljh_repo2docker.opt.provider." ++ "repo" : String)
      = "tljh_repo2docker.opt.provider.repo" := rfl
  have hdispName : ("tljh_repo2docker.opt.provider." ++ "display_name" : String)
      = "tljh_repo2docker.opt.provider.display_name" := rfl
  refine ⟨?_, ?_, ?_, ?_, ?_, ?_⟩
  · intro e he
    obtain ⟨l, hl, hf⟩ := decodeAll_provenance imageEntry _ es hi e he
    exact ⟨l, List.mem_of_mem_filter hl, imageEntry_fields l e hf⟩
  · intro e he
    obtain ⟨l, hl, hf⟩ := decodeAll_provenance containerEntry _ fs hc e he
    exact ⟨l, List.mem_of_mem_filter hl, containerEntry_fields l e hf⟩
  · intro l v hv hne
    simp [entryRepo, get_optional_value, hrepoName, hv, hne]
  · intro l hv
    cases hv with
    | inl h => simp [entryRepo, get_optional_value, hrepoName, h]
    | inr h => simp [entryRepo, get_optional_value, hrepoName, h]
  · intro l v hv hne
    simp [entryDisplayName, get_optional_value, hdispName, hv, hne]
  · intro l hv
    cases hv with
    | inl h => simp [entryDisplayName, get_optional_value, hdispName, h]
    | inr h => simp [entryDisplayName, get_optional_value, hdispName, h]

/-- C10 (witness): the amended theorem applied to a one-image listing
with a non-empty provider override, and to labels with the override
absent. -/
theorem C10_witness :
    entryRepo [("tljh_repo2docker.opt.provider.repo", "https://rdm/x")]
      = Except.ok "https://rdm/x" ∧
    entryRepo [("repo2docker.repo", "https://base")] = Except.ok "https://base" := by
  have h := C10_provider_override [] [] [] [] rfl rfl
  constructor
  · exact h.2.2.1 [("tljh_repo2docker.opt.provider.repo", "https://rdm/x")]
      "https://rdm/x" rfl (by decide)
  · have h4 := h.2.2.2.1 [("repo2docker.repo", "https://base")] (Or.inl rfl)
    rw [h4]
    rfl

/-- Two members of a list pairwise-distinct under a key agree iff they
are the same element. -/
theorem pairwise_key_unique {α β : Type} (key : α → β) {l : List α}
    (hp : l.Pairwise (fun a b => key a ≠ key b)) {a b : α}
    (ha : a ∈ l) (hb : b ∈ l) (he : key a = key b) : a = b := by
  induction l with
  | nil => cases ha
  | cons x xs ih =>
    rcases List.mem_cons.mp ha with rfl | ha2
    · rcases List.mem_cons.mp hb with rfl | hb2
      · rfl
      · exact absurd he ((List.pairwise_cons.mp hp).1 b hb2)
    · rcases List.mem_cons.mp hb with rfl | hb2
      · exact absurd he.symm ((List.pairwise_cons.mp hp).1 a ha2)
      · exact ih (List.pairwise_cons.mp hp).2 ha2 hb2

/-- With unique ids, resolving a member container's id finds exactly that
container. -/
theorem findById_self {e : CEngine} (hi : idsFresh e) {c : RContainer}
    (hc : c ∈ e.containers) : findById e c.cid = some c := by
  have hs : (e.containers.find? (fun d => d.cid == c.cid)).isSome = true :=
    List.find?_isSome.mpr ⟨c, hc, by simp⟩
  obtain ⟨d, hd⟩ := Option.isSome_iff_exists.mp hs
  have hdm := List.mem_of_find?_eq_some hd
  have hdp : d.cid = c.cid := by simpa using List.find?_some hd
  have hde : d = c := pairwise_key_unique RContainer.cid hi.1 hdm hc hdp
  rw [findById, hd, hde]

/-- A resolved name yields a member container carrying that name. -/
theorem findByName_spec {e : CEngine} {n : String} {c : RContainer}
    (h : findByName e n = some c) : c ∈ e.containers ∧ c.cname = n := by
  refine ⟨List.mem_of_find?_eq_some h, ?_⟩
  simpa using List.find?_some h

/-- No container with a given name means the name count is zero. -/
theorem countNamed_zero {e : CEngine} {n : String}
    (h : findByName e n = none) : countNamed e n = 0 := by
  rw [countNamed, List.filter_eq_nil_iff.mpr, List.length_nil]
  intro a ha
  have := List.find?_eq_none.mp h a ha
  simpa using this

/-- Renaming-free updates preserve name-filter lengths. -/
theorem filter_name_map (f : RContainer → RContainer)
    (hf : ∀ d, (f d).cname = d.cname) (n : String) :
    ∀ l : List RContainer,
      ((l.map f).filter (fun c => c.cname == n)).length
        = (l.filter (fun c => c.cname == n)).length := by
  intro l
  induction l with
  | nil => rfl
  | cons d l ih =>
    by_cases hd : (d.cname == n) = true
    · simp only [List.map_cons, List.filter_cons, hf d, hd, if_true, List.length_cons]
      omega
    · simp only [List.map_cons, List.filter_cons, hf d, hd, Bool.false_eq_true, if_false]
      exact ih

/-- Renaming-free container updates preserve name counts. -/
theorem countNamed_map (e : CEngine) (f : RContainer → RContainer)
    (hf : ∀ d, (f d).cname = d.cname) (n : String) :
    countNamed { e with containers := e.containers.map f } n = countNamed e n :=
  filter_name_map f hf n e.containers

/-- Pairwise-distinct names bound any name-filter length by one. -/
theorem filter_name_le_one (n : String) :
    ∀ l : List RContainer, l.Pairwise (fun a b => a.cname ≠ b.cname) →
      (l.filter (fun c => c.cname == n)).length ≤ 1 := by
  intro l
  induction l with
  | nil => simp
  | cons d l ih =>
    intro hp
    have h1 := (List.pairwise_cons.mp hp).1
    have h2 := (List.pairwise_cons.mp hp).2
    by_cases hd : (d.cname == n) = true
    · have hdn : d.cname = n := by simpa using hd
      have hnil : l.filter (fun c => c.cname == n) = [] := by
        rw [List.filter_eq_nil_iff]
        intro a ha
        have hne := h1 a ha
        simp only [beq_iff_eq]
        rw [← hdn]
        intro hin
        exact hne hin.symm
      simp [List.filter_cons, hd, hnil]
    · simp only [List.filter_cons, hd, Bool.false_eq_true, if_false]
      exact ih h2

/-- With unique names, at most one container carries any given name. -/
theorem countNamed_le_one {e : CEngine} (hn : namesUnique e) (n : String) :
    countNamed e n ≤ 1 :=
  filter_name_le_one n e.containers hn

/-- With unique names, a resolved name means exactly one container
carries it. -/
theorem countNamed_one {e : CEngine} {n : String} {c : RContainer}
    (hn : namesUnique e) (h : findByName e n = some c) : countNamed e n = 1 := by
  obtain ⟨hm, hname⟩ := findByName_spec h
  have hle := countNamed_le_one hn n
  have hge : 0 < countNamed e n := by
    rw [countNamed, List.length_pos]
    intro hnil
    have : c ∈ e.containers.filter (fun d => d.cname == n) :=
      List.mem_filter.mpr ⟨hm, by simp [hname]⟩
    rw [hnil] at this
    cases this
  omega

/-- C2 (counterexample): with a running prior sidecar, the reconcile step
(`remove_object_by_id`) does not remove the container — it only marks it
with the detached terminate exec — so creating the new sidecar under the
same name fails with the engine's 409 name conflict: the
reconcile-create-start sequence does not end with one new sidecar. -/
theorem C2_claim_cex :
    remove_object_by_id eC2x 0 =
      Except.ok
        { containers :=
            [{ cid := 0, cname := "jupyter-alice_rdmfs", running := true,
               terminateSignalled := true }],
          nextId := 1 } ∧
    sidecarCycle eC2x "jupyter-alice" = Except.error 409 := ⟨rfl, rfl⟩

/-- C2 (amended): with unique engine names and ids, the reconcile step
followed by create-and-start leaves exactly one container named
`{session}_rdmfs` when the prior sidecar was absent, or existed but was
not running (and the engine delete raised no error); when the prior
sidecar was running it is NOT removed — only signalled by the detached
terminate exec — and the create step fails with the engine's 409 name
conflict, the single old container remaining; independently, the
engine's name uniqueness bounds every name's count by one at all
times. -/
theorem C2_sidecar_reconcile (e : CEngine) (sn : String)
    (hn : namesUnique e) (hi : idsFresh e) :
    (findByName e (sn ++ "_rdmfs") = none →
      ∃ p, sidecarCycle e sn = Except.ok p ∧
        countNamed p.2 (sn ++ "_rdmfs") = 1) ∧
    (∀ c, findByName e (sn ++ "_rdmfs") = some c → c.running = false →
      c.deleteError = none →
      ∃ p, sidecarCycle e sn = Except.ok p ∧
        countNamed p.2 (sn ++ "_rdmfs") = 1) ∧
    (∀ c, findByName e (sn ++ "_rdmfs") = some c → c.running = true →
      sidecarCycle e sn = Except.error 409 ∧
        countNamed e (sn ++ "_rdmfs") = 1) ∧
    (∀ n, countNamed e n ≤ 1) := by
  have hcnamekeep : ∀ (j : Nat) (d : RContainer),
      ((fun d => if d.cid == j then { d with running := true } else d) d).cname
        = d.cname := by
    intro j d
    by_cases hd : (d.cid == j) = true
    · simp [hd]
    · simp [hd]
  refine ⟨?_, ?_, ?_, fun n => countNamed_le_one hn n⟩
  · intro h
    have h1 : get_rdmfs_object e sn = none := by rw [get_rdmfs_object, h]; rfl
    have hcr : create_rdmfs_object e (sn ++ "_rdmfs") =
        Except.ok (e.nextId,
          { containers :=
              { cid := e.nextId, cname := sn ++ "_rdmfs", running := false } :: e.containers,
            nextId := e.nextId + 1 }) := by
      rw [create_rdmfs_object, h]
      rfl
    have hfb : findById
        { containers :=
            { cid := e.nextId, cname := sn ++ "_rdmfs", running := false } :: e.containers,
          nextId := e.nextId + 1 } e.nextId
        = some { cid := e.nextId, cname := sn ++ "_rdmfs", running := false } := by
      rw [findById]
      exact List.find?_cons_of_pos _ (by simp)
    have hst : start_object_by_id
        { containers :=
            { cid := e.nextId, cname := sn ++ "_rdmfs", running := false } :: e.containers,
          nextId := e.nextId + 1 } e.nextId =
        Except.ok
          { containers :=
              (({ cid := e.nextId, cname := sn ++ "_rdmfs", running := false }
                  :: e.containers).map
                (fun d => if d.cid == e.nextId then { d with running := true } else d)),
            nextId := e.nextId + 1 } := by
      rw [start_object_by_id, hfb]
    refine ⟨(e.nextId,
      { containers :=
          (({ cid := e.nextId, cname := sn ++ "_rdmfs", running := false }
              :: e.containers).map
            (fun d => if d.cid == e.nextId then { d with running := true } else d)),
        nextId := e.nextId + 1 }), ?_, ?_⟩
    · rw [sidecarCycle]
      simp only [h1, bind, Except.bind, hcr, hst]
    · rw [countNamed]
      show ((({ cid := e.nextId, cname := sn ++ "_rdmfs", running := false }
          :: e.containers).map
            (fun d => if d.cid == e.nextId then { d with running := true } else d)).filter
          (fun c => c.cname == sn ++ "_rdmfs")).length = 1
      rw [filter_name_map _ (hcnamekeep e.nextId) _]
      rw [List.filter_cons]
      simp only [beq_self_eq_true, if_true, List.length_cons]
      have hz := countNamed_zero h
      rw [countNamed] at hz
      omega
  · intro c hc hrun hdel
    obtain ⟨hm, hname⟩ := findByName_spec hc
    have hfind : findById e c.cid = some c := findById_self hi hm
    have h1 : get_rdmfs_object e sn = some c.cid := by rw [get_rdmfs_object, hc]; rfl
    have hrem : remove_object_by_id e c.cid =
        Except.ok
          { containers := e.containers.filter (fun d => !(d.cid == c.cid)),
            nextId := e.nextId } := by
      rw [remove_object_by_id, hfind]
      simp [hrun, hdel]
    have hgone : findByName
        { containers := e.containers.filter (fun d => !(d.cid == c.cid)),
          nextId := e.nextId }
        (sn ++ "_rdmfs") = none := by
      rw [findByName, List.find?_eq_none]
      intro x hx
      obtain ⟨hx1, hx2⟩ := List.mem_filter.mp hx
      simp only [beq_iff_eq]
      intro hxn
      have hxc : x = c :=
        pairwise_key_unique RContainer.cname hn hx1 hm (hxn.trans hname.symm)
      rw [hxc] at hx2
      simp at hx2
    have hcr : create_rdmfs_object
        { containers := e.containers.filter (fun d => !(d.cid == c.cid)),
          nextId := e.nextId }
        (sn ++ "_rdmfs") =
        Except.ok (e.nextId,
          { containers :=
              { cid := e.nextId, cname := sn ++ "_rdmfs", running := false }
                :: e.containers.filter (fun d => !(d.cid == c.cid)),
            nextId := e.nextId + 1 }) := by
      rw [create_rdmfs_object, hgone]
      rfl
    have hfb : findById
        { containers :=
            { cid := e.nextId, cname := sn ++ "_rdmfs", running := false }
              :: e.containers.filter (fun d => !(d.cid == c.cid)),
          nextId := e.nextId + 1 } e.nextId
        = some { cid := e.nextId, cname := sn ++ "_rdmfs", running := false } := by
      rw [findById]
      exact List.find?_cons_of_pos _ (by simp)
    have hst : start_object_by_id
        { containers :=
            { cid := e.nextId, cname := sn ++ "_rdmfs", running := false }
              :: e.containers.filter (fun d => !(d.cid == c.cid)),
          nextId := e.nextId + 1 } e.nextId =
        Except.ok
          { containers :=
              (({ cid := e.nextId, cname := sn ++ "_rdmfs", running := false }
                  :: e.containers.filter (fun d => !(d.cid == c.cid))).map
                (fun d => if d.cid == e.nextId then { d with running := true } else d)),
            nextId := e.nextId + 1 } := by
      rw [start_object_by_id, hfb]
    refine ⟨(e.nextId,
      { containers :=
          (({ cid := e.nextId, cname := sn ++ "_rdmfs", running := false }
              :: e.containers.filter (fun d => !(d.cid == c.cid))).map
            (fun d => if d.cid == e.nextId then { d with running := true } else d)),
        nextId := e.nextId + 1 }), ?_, ?_⟩
    · rw [sidecarCycle]
      simp only [h1, bind, Except.bind, hrem, hcr, hst]
    · rw [countNamed]
      show ((({ cid := e.nextId, cname := sn ++ "_rdmfs", running := false }
          :: e.containers.filter (fun d => !(d.cid == c.cid))).map
            (fun d => if d.cid == e.nextId then { d with running := true } else d)).filter
          (fun x => x.cname == sn ++ "_rdmfs")).length = 1
      rw [filter_name_map _ (hcnamekeep e.nextId) _]
      rw [List.filter_cons]
      simp only [beq_self_eq_true, if_true, List.length_cons]
      have hz : ((e.containers.filter (fun d => !(d.cid == c.cid))).filter
          (fun x => x.cname == sn ++ "_rdmfs")).length = 0 := countNamed_zero hgone
      omega
  · intro c hc hrun
    obtain ⟨hm, hname⟩ := findByName_spec hc
    have hfind : findById e c.cid = some c := findById_self hi hm
    have h1 : get_rdmfs_object e sn = some c.cid := by rw [get_rdmfs_object, hc]; rfl
    have hrem : remove_object_by_id e c.cid =
        Except.ok
          { containers := e.containers.map
              (fun d => if d.cid == c.cid then { d with terminateSignalled := true } else d),
            nextId := e.nextId } := by
      rw [remove_object_by_id, hfind]
      simp [hrun]
    have hstill : findByName
        { containers := e.containers.map
            (fun d => if d.cid == c.cid then { d with terminateSignalled := true } else d),
          nextId := e.nextId }
        (sn ++ "_rdmfs")
        = some (if c.cid == c.cid then { c with terminateSignalled := true } else c) := by
      rw [findByName]
      show (e.containers.map
          (fun d => if d.cid == c.cid then { d with terminateSignalled := true } else d)).find?
          (fun d => d.cname == sn ++ "_rdmfs")
        = some (if c.cid == c.cid then { c with terminateSignalled := true } else c)
      rw [List.find?_map]
      have hp : ((fun d : RContainer => d.cname == sn ++ "_rdmfs") ∘
          (fun d => if d.cid == c.cid then { d with terminateSignalled := true } else d))
          = (fun d : RContainer => d.cname == sn ++ "_rdmfs") := by
        funext d
        by_cases hd : (d.cid == c.cid) = true
        · have hde : d.cid = c.cid := by simpa using hd
          simp [hde]
        · have hde : ¬d.cid = c.cid := by simpa using hd
          simp [hde]
      rw [hp]
      rw [findByName] at hc
      rw [hc]
      rfl
    have hcre : create_rdmfs_object
        { containers := e.containers.map
            (fun d => if d.cid == c.cid then { d with terminateSignalled := true } else d),
          nextId := e.nextId }
        (sn ++ "_rdmfs") = Except.error 409 := by
      rw [create_rdmfs_object, hstill]
      rfl
    constructor
    · rw [sidecarCycle]
      simp only [h1, bind, Except.bind, hrem, hcre]
    · exact countNamed_one hn hc

/-- C2 (witness): the amended theorem applied to an engine with no prior
sidecar and to one with a stopped prior sidecar. -/
theorem C2_witness :
    (∃ p, sidecarCycle { containers := [], nextId := 0 } "s" = Except.ok p ∧
      countNamed p.2 ("s" ++ "_rdmfs") = 1) ∧
    (∃ p, sidecarCycle
        { containers := [{ cid := 0, cname := "s_rdmfs", running := false }], nextId := 1 }
        "s" = Except.ok p ∧
      countNamed p.2 ("s" ++ "_rdmfs") = 1) := by
  constructor
  · exact (C2_sidecar_reconcile { containers := [], nextId := 0 } "s"
      List.Pairwise.nil ⟨List.Pairwise.nil, by simp⟩).1 rfl
  · exact (C2_sidecar_reconcile
      { containers := [{ cid := 0, cname := "s_rdmfs", running := false }], nextId := 1 }
      "s" (by simp [namesUnique]) ⟨by simp [idsFresh], by simp⟩).2.1
      { cid := 0, cname := "s_rdmfs", running := false } rfl rfl rfl

/-- C9: session-stop teardown behaviour (with unique engine ids so an id
resolves to the container it was taken from): no sidecar → no raise and
no state change; sidecar running → the detached terminate exec is issued
and nothing is deleted, the sidecar remaining resolvable; sidecar present
but not running → it is deleted directly; engine 409/404 during the
delete are absorbed; any other engine error propagates. -/
theorem C9_teardown (e : CEngine) (sn : String) (hi : idsFresh e) :
    (findByName e (sn ++ "_rdmfs") = none → stop_teardown e sn = Except.ok e) ∧
    (∀ c, findByName e (sn ++ "_rdmfs") = some c → c.running = true →
      ∃ e2, stop_teardown e sn = Except.ok e2 ∧
        e2.containers.length = e.containers.length ∧
        findByName e2 (sn ++ "_rdmfs") = some { c with terminateSignalled := true }) ∧
    (∀ c, findByName e (sn ++ "_rdmfs") = some c → c.running = false →
      c.deleteError = none →
      stop_teardown e sn =
        Except.ok
          { containers := e.containers.filter (fun d => !(d.cid == c.cid)),
            nextId := e.nextId }) ∧
    (∀ c, findByName e (sn ++ "_rdmfs") = some c → c.running = false →
      (c.deleteError = some 409 ∨ c.deleteError = some 404) →
      stop_teardown e sn = Except.ok e) ∧
    (∀ c code, findByName e (sn ++ "_rdmfs") = some c → c.running = false →
      c.deleteError = some code → code ≠ 409 → code ≠ 404 →
      stop_teardown e sn = Except.error code) := by
  refine ⟨?_, ?_, ?_, ?_, ?_⟩
  · intro h
    rw [stop_teardown, get_rdmfs_object, h]
    rfl
  · intro c hc hrun
    obtain ⟨hm, hname⟩ := findByName_spec hc
    have hfind : findById e c.cid = some c := findById_self hi hm
    have h1 : get_rdmfs_object e sn = some c.cid := by rw [get_rdmfs_object, hc]; rfl
    have hrem : remove_object_by_id e c.cid = Except.ok (signalTerminate e c.cid) := by
      rw [remove_object_by_id, hfind]
      simp [hrun, signalTerminate]
    refine ⟨signalTerminate e c.cid, ?_, ?_, ?_⟩
    · simp only [stop_teardown, h1]
      exact hrem
    · exact (List.length_map e.containers _)
    · show (e.containers.map
          (fun d => if d.cid == c.cid then { d with terminateSignalled := true } else d)).find?
          (fun d => d.cname == sn ++ "_rdmfs")
        = some { c with terminateSignalled := true }
      rw [List.find?_map]
      have hp : ((fun d : RContainer => d.cname == sn ++ "_rdmfs") ∘
          (fun d => if d.cid == c.cid then { d with terminateSignalled := true } else d))
          = (fun d : RContainer => d.cname == sn ++ "_rdmfs") := by
        funext d
        by_cases hd : (d.cid == c.cid) = true
        · have hde : d.cid = c.cid := by simpa using hd
          simp [hde]
        · have hde : ¬d.cid = c.cid := by simpa using hd
          simp [hde]
      rw [hp]
      rw [findByName] at hc
      rw [hc]
      simp
  · intro c hc hrun hdel
    obtain ⟨hm, hname⟩ := findByName_spec hc
    have hfind : findById e c.cid = some c := findById_self hi hm
    have h1 : get_rdmfs_object e sn = some c.cid := by rw [get_rdmfs_object, hc]; rfl
    simp only [stop_teardown, h1]
    rw [remove_object_by_id, hfind]
    simp [hrun, hdel]
  · intro c hc hrun hdel
    obtain ⟨hm, hname⟩ := findByName_spec hc
    have hfind : findById e c.cid = some c := findById_self hi hm
    have h1 : get_rdmfs_object e sn = some c.cid := by rw [get_rdmfs_object, hc]; rfl
    simp only [stop_teardown, h1]
    rw [remove_object_by_id, hfind]
    cases hdel with
    | inl h => simp [hrun, h]
    | inr h => simp [hrun, h]
  · intro c code hc hrun hdel h9 h4
    obtain ⟨hm, hname⟩ := findByName_spec hc
    have hfind : findById e c.cid = some c := findById_self hi hm
    have h1 : get_rdmfs_object e sn = some c.cid := by rw [get_rdmfs_object, hc]; rfl
    simp only [stop_teardown, h1]
    rw [remove_object_by_id, hfind]
    simp only [hrun, Bool.false_eq_true, if_false, hdel]

/-- C9 (witness): the teardown theorem applied to concrete engines: no
sidecar (no raise), a running sidecar (signalled, not deleted), a stopped
sidecar (deleted), an absorbed 409, and a propagated 500. -/
theorem C9_witness :
    stop_teardown { containers := [], nextId := 0 } "s"
      = Except.ok { containers := [], nextId := 0 } ∧
    (∃ e2, stop_teardown
        { containers := [{ cid := 0, cname := "s_rdmfs", running := true }], nextId := 1 }
        "s" = Except.ok e2 ∧
      e2.containers.length = 1 ∧
      findByName e2 ("s" ++ "_rdmfs")
        = some { cid := 0, cname := "s_rdmfs", running := true, terminateSignalled := true }) ∧
    stop_teardown
        { containers := [{ cid := 0, cname := "s_rdmfs", running := false }], nextId := 1 }
        "s"
      = Except.ok { containers := [], nextId := 1 } ∧
    stop_teardown
        { containers := [{ cid := 0, cname := "s_rdmfs", running := false, deleteError := some 409 }], nextId := 1 } "s"
      = Except.ok
          { containers := [{ cid := 0, cname := "s_rdmfs", running := false, deleteError := some 409 }], nextId := 1 } ∧
    stop_teardown
        { containers := [{ cid := 0, cname := "s_rdmfs", running := false, deleteError := some 500 }], nextId := 1 } "s"
      = Except.error 500 := by
  refine ⟨?_, ?_, ?_, ?_, ?_⟩
  · exact (C9_teardown { containers := [], nextId := 0 } "s"
      ⟨List.Pairwise.nil, by simp⟩).1 rfl
  · exact (C9_teardown
      { containers := [{ cid := 0, cname := "s_rdmfs", running := true }], nextId := 1 }
      "s" ⟨by simp [idsFresh], by simp⟩).2.1
      { cid := 0, cname := "s_rdmfs", running := true } rfl rfl
  · exact (C9_teardown
      { containers := [{ cid := 0, cname := "s_rdmfs", running := false }], nextId := 1 }
      "s" ⟨by simp [idsFresh], by simp⟩).2.2.1
      { cid := 0, cname := "s_rdmfs", running := false } rfl rfl rfl
  · exact (C9_teardown
      { containers := [{ cid := 0, cname := "s_rdmfs", running := false, deleteError := some 409 }], nextId := 1 }
      "s" ⟨by simp [idsFresh], by simp⟩).2.2.2.1
      { cid := 0, cname := "s_rdmfs", running := false, deleteError := some 409 }
      rfl rfl (Or.inl rfl)
  · exact (C9_teardown
      { containers := [{ cid := 0, cname := "s_rdmfs", running := false, deleteError := some 500 }], nextId := 1 }
      "s" ⟨by simp [idsFresh], by simp⟩).2.2.2.2
      { cid := 0, cname := "s_rdmfs", running := false, deleteError := some 500 }
      500 rfl rfl rfl (by decide) (by decide)

/-- Lemma: `ensure_image_labels` on a present image never fails: it is a no-op
when all expected labels match and otherwise commits the merged label
set. -/
theorem ensure_ok (e : IEngine) (iname : String) (exp : LabelMap) (cur : LabelMap)
    (h : e.images.lookup (dockerImageRef iname) = some cur) :
    ensure_image_labels e iname exp =
      Except.ok
        (if labelsMatch cur exp then e
         else
           { e with
             images := (dockerImageRef iname, exp ++ cur) :: e.images,
             commits := e.commits + 1 }) := by
  rw [ensure_image_labels, h]
  by_cases hm : labelsMatch cur exp
  · simp [hm]
  · simp [hm]

/-- Lemma: `build_image` on an already-present target image reconciles labels
and returns the name, running no build. -/
theorem build_image_present (req : BuildReq) (bl : LabelMap) (e : IEngine)
    (cur : LabelMap)
    (h : e.images.lookup (dockerImageRef (buildImageName req)) = some cur) :
    build_image req bl e =
      Except.ok (buildImageName req,
        if labelsMatch cur (builder_labels req) then e
        else
          { e with
            images := (dockerImageRef (buildImageName req), builder_labels req ++ cur)
              :: e.images,
            commits := e.commits + 1 }) := by
  have he := ensure_ok e (buildImageName req) (builder_labels req) cur h
  simp only [build_image, h, he]

/-- Lemma: `build_image` on an absent target image runs one build and registers
the image produced by the build tool. -/
theorem build_image_fresh (req : BuildReq) (bl : LabelMap) (e : IEngine)
    (h : e.images.lookup (dockerImageRef (buildImageName req)) = none) :
    build_image req bl e =
      Except.ok (buildImageName req,
        { e with
          images := (dockerImageRef (buildImageName req), bl) :: e.images,
          buildRuns := e.buildRuns + 1 }) := by
  simp only [build_image, h]

/-- C1: a build request whose target image name already exists returns
that name without running the build tool; when some target label is
missing or different on the existing image, the merged (existing updated
with target) label set is committed under the same repository:tag; when
all target labels match, no commit happens and the state is untouched;
and two successive `build_image` calls with the same request return the
same image name and run the build tool at most once in total. -/
theorem C1_build_dedup (req : BuildReq) (bl1 bl2 : LabelMap) (e e1 e2 : IEngine)
    (n1 n2 : String)
    (h1 : build_image req bl1 e = Except.ok (n1, e1))
    (h2 : build_image req bl2 e1 = Except.ok (n2, e2)) :
    n1 = n2 ∧ n1 = buildImageName req ∧
    e2.buildRuns ≤ e.buildRuns + 1 ∧
    (∀ cur, e.images.lookup (dockerImageRef (buildImageName req)) = some cur →
      e1.buildRuns = e.buildRuns ∧
      (labelsMatch cur (builder_labels req) = true → e1 = e) ∧
      (labelsMatch cur (builder_labels req) = false →
        e1.commits = e.commits + 1 ∧
        e1.images.lookup (dockerImageRef (buildImageName req))
          = some (builder_labels req ++ cur))) := by
  cases hcur : e.images.lookup (dockerImageRef (buildImageName req)) with
  | some cur =>
    rw [build_image_present req bl1 e cur hcur] at h1
    simp only [Except.ok.injEq, Prod.mk.injEq] at h1
    obtain ⟨hn1, he1⟩ := h1
    by_cases hm : labelsMatch cur (builder_labels req) = true
    · rw [if_pos hm] at he1
      subst he1
      rw [build_image_present req bl2 e cur hcur] at h2
      simp only [Except.ok.injEq, Prod.mk.injEq] at h2
      obtain ⟨hn2, he2⟩ := h2
      rw [if_pos hm] at he2
      subst he2
      refine ⟨hn1.symm.trans hn2, hn1.symm, by omega, ?_⟩
      intro cur0 h0
      injection h0 with h0
      subst h0
      exact ⟨rfl, fun _ => rfl, fun hf => absurd hm (by simp [hf])⟩
    · have hmf : labelsMatch cur (builder_labels req) = false := by
        simpa using hm
      rw [if_neg (by simp [hmf])] at he1
      subst he1
      have hl1 : ({ e with
          images := (dockerImageRef (buildImageName req), builder_labels req ++ cur)
            :: e.images,
          commits := e.commits + 1 } : IEngine).images.lookup
          (dockerImageRef (buildImageName req)) = some (builder_labels req ++ cur) := by
        simp [List.lookup_cons]
      rw [build_image_present req bl2 _ _ hl1] at h2
      simp only [Except.ok.injEq, Prod.mk.injEq] at h2
      obtain ⟨hn2, he2⟩ := h2
      have hbr2 : e2.buildRuns = e.buildRuns := by
        by_cases hm2 : labelsMatch (builder_labels req ++ cur) (builder_labels req) = true
        · rw [if_pos hm2] at he2
          subst he2
          rfl
        · rw [if_neg hm2] at he2
          subst he2
          rfl
      refine ⟨hn1.symm.trans hn2, hn1.symm, by omega, ?_⟩
      intro cur0 h0
      injection h0 with h0
      subst h0
      exact ⟨rfl, fun ht => absurd ht (by simp [hmf]), fun _ => ⟨rfl, hl1⟩⟩
  | none =>
    rw [build_image_fresh req bl1 e hcur] at h1
    simp only [Except.ok.injEq, Prod.mk.injEq] at h1
    obtain ⟨hn1, he1⟩ := h1
    subst he1
    have hl1 : ({ e with
        images := (dockerImageRef (buildImageName req), bl1) :: e.images,
        buildRuns := e.buildRuns + 1 } : IEngine).images.lookup
        (dockerImageRef (buildImageName req)) = some bl1 := by
      simp [List.lookup_cons]
    rw [build_image_present req bl2 _ _ hl1] at h2
    simp only [Except.ok.injEq, Prod.mk.injEq] at h2
    obtain ⟨hn2, he2⟩ := h2
    have hbr2 : e2.buildRuns = e.buildRuns + 1 := by
      by_cases hm2 : labelsMatch bl1 (builder_labels req) = true
      · rw [if_pos hm2] at he2
        subst he2
        rfl
      · rw [if_neg hm2] at he2
        subst he2
        rfl
    refine ⟨hn1.symm.trans hn2, hn1.symm, by omega, ?_⟩
    intro cur0 h0
    cases h0

/-- C1 (witness): the theorem applied to two concrete successive calls on
an initially empty engine: the first call builds `a-b:HEAD`, the second
reuses it, with at most one build in total. -/
theorem C1_witness :
    buildImageName reqC3e = "a-b:HEAD" ∧
    ({ images := [("a-b:HEAD", builder_labels reqC3e)], buildRuns := 1,
       commits := 0 } : IEngine).buildRuns ≤ 1 := by
  have h := C1_build_dedup reqC3e (builder_labels reqC3e) (builder_labels reqC3e)
    { images := [], buildRuns := 0, commits := 0 }
    { images := [("a-b:HEAD", builder_labels reqC3e)], buildRuns := 1, commits := 0 }
    { images := [("a-b:HEAD", builder_labels reqC3e)], buildRuns := 1, commits := 0 }
    "a-b:HEAD" "a-b:HEAD" rfl rfl
  exact ⟨h.2.1.symm, h.2.2.1⟩

/-- A string extending a block that is not a character-prefix of the
target differs from the target. -/
theorem strApp_ne (p a t : String) (h : ¬(p.data <+: t.data)) : p ++ a ≠ t := by
  intro he
  exact h ⟨a.data, by rw [← String.data_append, he]⟩

/-- String append is left-cancellative. -/
theorem strApp_left_cancel (p a b : String) (h : p ++ a = p ++ b) : a = b := by
  have hd : p.data ++ a.data = p.data ++ b.data := by
    rw [← String.data_append, ← String.data_append, h]
  exact String.ext (List.append_cancel_left hd)

/-- The optional label map never answers a query that does not carry the
`tljh_repo2docker.opt.` key block. -/
theorem optLabelMap_skip (req : BuildReq) (t : String)
    (h : ¬("tljh_repo2docker.opt.".data <+: t.data)) :
    (optLabelMap req).lookup t = none := by
  rw [optLabelMap]
  induction req.optional_labels with
  | nil => rfl
  | cons kv l ih =>
    rw [List.map_cons, List.lookup_cons]
    have hne : (t == "tljh_repo2docker.opt." ++ kv.1) = false := by
      rw [beq_eq_false_iff_ne]
      exact fun he => strApp_ne _ kv.1 t h he.symm
    rw [hne]
    exact ih

/-- Looking up a blocked key in the optional label map is exactly looking
up the raw key in the request's optional metadata. -/
theorem optLabelMap_hit (req : BuildReq) (k : String) :
    (optLabelMap req).lookup ("tljh_repo2docker.opt." ++ k)
      = req.optional_labels.lookup k := by
  rw [optLabelMap]
  induction req.optional_labels with
  | nil => rfl
  | cons kv l ih =>
    rw [List.map_cons, List.lookup_cons, List.lookup_cons]
    have hbq : (("tljh_repo2docker.opt." ++ k) == ("tljh_repo2docker.opt." ++ kv.1))
        = (k == kv.1) := by
      by_cases he : k = kv.1
      · simp [he]
      · have hne : "tljh_repo2docker.opt." ++ k ≠ "tljh_repo2docker.opt." ++ kv.1 :=
          fun hc => he (strApp_left_cancel _ _ _ hc)
        simp [he, hne]
    rw [hbq]
    cases hkk : (k == kv.1) with
    | true => rfl
    | false => exact ih

/-- Lemma: `normRef` leaves a non-empty ref of fewer than 40 characters
unchanged. -/
theorem normRef_short (s : String) (h1 : s ≠ "") (h2 : s.length < 40) :
    normRef s = s := by
  simp only [normRef, if_neg h1]
  rw [if_neg (by omega)]

/-- For a blocked optional key, the full builder label set answers
exactly the request's optional metadata: optional keys round-trip and
collide with no fixed or marker label. -/
theorem builder_lookup_opt (req : BuildReq) (k : String) :
    (builder_labels req).lookup ("tljh_repo2docker.opt." ++ k)
      = req.optional_labels.lookup k := by
  have f1 : (("tljh_repo2docker.opt." ++ k) == "tljh_repo2docker.display_name") = false := by
    rw [beq_eq_false_iff_ne]
    exact strApp_ne _ _ _ (by decide)
  have f2 : (("tljh_repo2docker.opt." ++ k) == "tljh_repo2docker.image_name") = false := by
    rw [beq_eq_false_iff_ne]
    exact strApp_ne _ _ _ (by decide)
  have f3 : (("tljh_repo2docker.opt." ++ k) == "tljh_repo2docker.mem_limit") = false := by
    rw [beq_eq_false_iff_ne]
    exact strApp_ne _ _ _ (by decide)
  have f4 : (("tljh_repo2docker.opt." ++ k) == "tljh_repo2docker.cpu_limit") = false := by
    rw [beq_eq_false_iff_ne]
    exact strApp_ne _ _ _ (by decide)
  have f5 : (("tljh_repo2docker.opt." ++ k) == "repo2docker.repo") = false := by
    rw [beq_eq_false_iff_ne]
    exact strApp_ne _ _ _ (by decide)
  have f6 : (("tljh_repo2docker.opt." ++ k) == "repo2docker.ref") = false := by
    rw [beq_eq_false_iff_ne]
    exact strApp_ne _ _ _ (by decide)
  have f7 : (("tljh_repo2docker.opt." ++ k) == "repo2docker.build") = false := by
    rw [beq_eq_false_iff_ne]
    exact strApp_ne _ _ _ (by decide)
  rw [builder_labels, desired_image_labels]
  rw [List.lookup_append, List.lookup_append, List.lookup_append, optLabelMap_hit req k]
  cases hk : req.optional_labels.lookup k with
  | some v => simp
  | none =>
    simp [List.lookup_cons, f1, f2, f3, f4, f5, f6, f7]

/-- The builder label set answers each fixed and marker key with exactly
the encoded request field, and the two provider-scoped optional keys with
the request's optional metadata. -/
theorem builder_lookup_fixed (req : BuildReq) :
    (builder_labels req).lookup "repo2docker.repo" = some req.repo ∧
    (builder_labels req).lookup "repo2docker.ref" = some (normRef req.ref) ∧
    (builder_labels req).lookup "tljh_repo2docker.display_name"
      = some (resolveNames req).1 ∧
    (builder_labels req).lookup "tljh_repo2docker.image_name"
      = some (resolveNames req).2 ∧
    (builder_labels req).lookup "tljh_repo2docker.mem_limit"
      = some (encodeMem req.memory) ∧
    (builder_labels req).lookup "tljh_repo2docker.cpu_limit" = some req.cpu ∧
    get_optional_value (builder_labels req) "repo"
      = req.optional_labels.lookup "provider.repo" ∧
    get_optional_value (builder_labels req) "display_name"
      = req.optional_labels.lookup "provider.display_name" := by
  refine ⟨?_, ?_, ?_, ?_, ?_, ?_, ?_, ?_⟩
  · rw [builder_labels, desired_image_labels, List.lookup_append, List.lookup_append,
      List.lookup_append, optLabelMap_skip req _ (by decide)]
    simp [List.lookup_cons]
  · rw [builder_labels, desired_image_labels, List.lookup_append, List.lookup_append,
      List.lookup_append, optLabelMap_skip req _ (by decide)]
    simp [List.lookup_cons]
  · rw [builder_labels, desired_image_labels, List.lookup_append, List.lookup_append,
      List.lookup_append, optLabelMap_skip req _ (by decide)]
    simp [List.lookup_cons]
  · rw [builder_labels, desired_image_labels, List.lookup_append, List.lookup_append,
      List.lookup_append, optLabelMap_skip req _ (by decide)]
    simp [List.lookup_cons]
  · rw [builder_labels, desired_image_labels, List.lookup_append, List.lookup_append,
      List.lookup_append, optLabelMap_skip req _ (by decide)]
    simp [List.lookup_cons]
  · rw [builder_labels, desired_image_labels, List.lookup_append, List.lookup_append,
      List.lookup_append, optLabelMap_skip req _ (by decide)]
    simp [List.lookup_cons]
  · rw [get_optional_value]
    exact builder_lookup_opt req "provider.repo"
  · rw [get_optional_value]
    exact builder_lookup_opt req "provider.display_name"

/-- C4 (counterexample): for a request with an empty ref the decoded ref
is the normalized `"HEAD"`, not the request's ref — the round trip is
not exact on the ref field. -/
theorem C4_claim_cex :
    Except.map ImageEntry.ref (imageEntry (builder_labels reqC3e)) = Except.ok "HEAD" ∧
    reqC3e.ref = "" ∧
    ("HEAD" : String) ≠ "" := ⟨rfl, rfl, by decide⟩

/-- C4 (amended): for a build request with no forced image name, a
non-empty ref of fewer than 40 characters, a non-empty already-sanitized
name, and optional metadata without `provider.repo` /
`provider.display_name` overrides, decoding the builder label set (as
`list_images` does over an image carrying exactly those labels) recovers
repo, ref, display name, memory (stringified with a `G` suffix only when
non-empty), cpu, and every optional-metadata key exactly. -/
theorem C4_label_roundtrip (req : BuildReq)
    (hd : req.default_image_name = none)
    (hr1 : req.ref ≠ "") (hr2 : req.ref.length < 40)
    (hn1 : req.name ≠ "") (hn2 : sanitizeName req.name = req.name)
    (ho1 : req.optional_labels.lookup "provider.repo" = none)
    (ho2 : req.optional_labels.lookup "provider.display_name" = none) :
    ∃ entry, imageEntry (builder_labels req) = Except.ok entry ∧
      entry.repo = req.repo ∧
      entry.ref = req.ref ∧
      entry.display_name = req.name ∧
      entry.mem_limit = encodeMem req.memory ∧
      entry.cpu_limit = req.cpu ∧
      entry.spawnref = quote_plus (req.repo ++ "#" ++ req.ref) ∧
      (∀ k, (builder_labels req).lookup ("tljh_repo2docker.opt." ++ k)
        = req.optional_labels.lookup k) := by
  obtain ⟨lrepo, lref, ldisp, limg, lmem, lcpu, lor, lod⟩ := builder_lookup_fixed req
  rw [ho1] at lor
  rw [ho2] at lod
  have hname : (resolveNames req).1 = req.name := by
    simp [resolveNames, hd, hn1, hn2]
  have href := normRef_short req.ref hr1 hr2
  have hrepoL : lookupE (builder_labels req) "repo2docker.repo" = Except.ok req.repo := by
    rw [lookupE, lrepo]
  have hrepoE : entryRepo (builder_labels req) = Except.ok req.repo := by
    rw [entryRepo, lor]
    exact hrepoL
  have hrefE : lookupE (builder_labels req) "repo2docker.ref" = Except.ok req.ref := by
    rw [lookupE, lref, href]
  have hdispE : entryDisplayName (builder_labels req) = Except.ok req.name := by
    rw [entryDisplayName, lod, lookupE, ldisp, hname]
  have hspawn : get_spawn_ref (builder_labels req)
      = Except.ok (quote_plus (req.repo ++ "#" ++ req.ref)) := by
    simp only [get_spawn_ref, bind, Except.bind, hrepoL, hrefE]
  have himgE : lookupE (builder_labels req) "tljh_repo2docker.image_name"
      = Except.ok (resolveNames req).2 := by
    rw [lookupE, limg]
  have hmemE : lookupE (builder_labels req) "tljh_repo2docker.mem_limit"
      = Except.ok (encodeMem req.memory) := by
    rw [lookupE, lmem]
  have hcpuE : lookupE (builder_labels req) "tljh_repo2docker.cpu_limit"
      = Except.ok req.cpu := by
    rw [lookupE, lcpu]
  refine ⟨{
      provider := (builder_labels req).lookup "tljh_repo2docker.opt.provider",
      repo := req.repo, ref := req.ref,
      spawnref := quote_plus (req.repo ++ "#" ++ req.ref),
      image_name := (resolveNames req).2, display_name := req.name,
      mem_limit := encodeMem req.memory, cpu_limit := req.cpu, status := "built" },
    ?_, rfl, rfl, rfl, rfl, rfl, rfl, builder_lookup_opt req⟩
  simp only [imageEntry, bind, Except.bind, hrepoE, hrefE, hspawn, himgE, hdispE,
    hmemE, hcpuE]

/-- C4 (witness): the round-trip theorem applied to a concrete request
with ref `v1`, name `a-b`, memory 2 GB, cpu 1.5 and two optional keys. -/
theorem C4_witness :
    ∃ entry,
      imageEntry (builder_labels
        { repo := "https://github.com/a/b", ref := "v1", name := "a-b", memory := "2",
          cpu := "1.5", optional_labels := [("provider", "rdm"), ("user.rdm_node_id", "n1")] })
        = Except.ok entry ∧
      entry.repo = "https://github.com/a/b" ∧
      entry.ref = "v1" ∧
      entry.display_name = "a-b" ∧
      entry.mem_limit = encodeMem "2" ∧
      entry.cpu_limit = "1.5" ∧
      entry.spawnref = quote_plus ("https://github.com/a/b" ++ "#" ++ "v1") ∧
      (∀ k, (builder_labels
        { repo := "https://github.com/a/b", ref := "v1", name := "a-b", memory := "2",
          cpu := "1.5",
          optional_labels := [("provider", "rdm"), ("user.rdm_node_id", "n1")] }).lookup
            ("tljh_repo2docker.opt." ++ k)
        = ([("provider", "rdm"), ("user.rdm_node_id", "n1")]
            : List (String × String)).lookup k) :=
  C4_label_roundtrip
    { repo := "https://github.com/a/b", ref := "v1", name := "a-b", memory := "2",
      cpu := "1.5", optional_labels := [("provider", "rdm"), ("user.rdm_node_id", "n1")] }
    rfl (by decide) (by decide) (by decide) (by decide) rfl rfl
